import Mathlib

/-!
Verification of the `lyricsync` embedding workflow.

A shallow embedding of `src/main.rs` of the `lyricsync` repository: the
directory scanner, the lyric presence detector (`has_embedded_lyrics`), the
per-format tag mutators (`embed_lrc_to_flac`, `embed_lrc_to_mp3`,
`embed_lrc_to_m4a`), the dispatcher (`embed_lrc_to_file`) and the
orchestrator (`embed_lrc`).

The filesystem is modelled explicitly: a static environment `Env` holds the
directory enumeration produced by `walkdir` together with the sets of paths
on which `open`, `fs::remove_file` and `fs::rename` fail, and a mutable
`Disk` holds the audio containers and the `.lrc` sidecar text files.
Container parsing by the `lofty` codec layer is modelled by storing each
file's actual container shape in `AudioData`: reading a path as FLAC
succeeds exactly when the stored data is a FLAC container, and so on.
-/

set_option autoImplicit false

/-- A filesystem path, split the way `std::path::Path` accessors split it:
`dir` is the list of directory components below the scan root, `stem` is
`file_stem()` and `ext` is `extension()` (`none` when the name has no dot). -/
structure FPath where
  dir : List String
  stem : String
  ext : Option String
deriving DecidableEq, Repr

/-- `audio_path.with_file_name(format!("{}.lrc", file_stem))`: the sidecar
path sits in the same directory and has extension `lrc`. -/
def FPath.lrcPath (p : FPath) : FPath :=
  { p with ext := some "lrc" }

/-- `Path::with_extension`: replace the extension component. -/
def FPath.withExtension (p : FPath) (e : String) : FPath :=
  { p with ext := some e }

/-- Association-list lookup (first binding wins), the behaviour of
`VorbisComments::get`, `Id3v2Tag::get` and `Ilst::get`. -/
def alookup {α β : Type} [DecidableEq α] (k : α) : List (α × β) → Option β
  | [] => none
  | (a, b) :: t => if a = k then some b else alookup k t

/-- Remove every binding of a key. -/
def aerase {α β : Type} [DecidableEq α] (k : α) : List (α × β) → List (α × β)
  | [] => []
  | (a, b) :: t => if a = k then aerase k t else (a, b) :: aerase k t

/-- Replace-style insertion: drop the existing bindings of the key and append
the new one, the behaviour of the codec layer's `insert` operations. -/
def ainsert {α β : Type} [DecidableEq α] (k : α) (v : β) (l : List (α × β)) :
    List (α × β) :=
  aerase k l ++ [(k, v)]

/-- The actual content of an audio file on disk. `corrupt` stands for bytes
no `lofty` reader can parse. The three container kinds carry their optional
tag block: vorbis comments for FLAC, an ID3v2 tag for MP3, an `ilst` item
list for M4A, each a key/value list (comment key, frame id, atom fourcc). -/
inductive AudioData where
  | corrupt
  | flac (vorbis : Option (List (String × String)))
  | mp3 (id3v2 : Option (List (String × String)))
  | m4a (ilst : Option (List (String × String)))
deriving DecidableEq, Repr

/-- One entry yielded by `WalkDir`: its path, whether `file_type().is_file()`
holds, and whether the walk could read it (`e.ok()`). -/
structure FSEntry where
  path : FPath
  isFile : Bool
  readable : Bool
deriving DecidableEq, Repr

/-- Static part of the world: the walk enumeration under the scan root, and
the sets of paths on which `OpenOptions::open`, `fs::remove_file` and
`fs::rename` (as source) fail with an I/O error. -/
structure Env where
  entries : List FSEntry
  openFails : List FPath
  removeFails : List FPath
  renameFails : List FPath
deriving DecidableEq, Repr

/-- Mutable part of the world: audio containers and `.lrc` text files. -/
structure Disk where
  audio : List (FPath × AudioData)
  lrc : List (FPath × String)
deriving DecidableEq, Repr

/-- Errors of `LrcError` in `main.rs` (payloads elided except the extension
string carried by `UnsupportedFormat`). -/
inductive LrcError where
  | io
  | audioErr
  | unsupportedFormat (ext : String)
deriving DecidableEq, Repr

/-- `fn has_embedded_lyrics(audio_path: &Path) -> Result<bool>`.
Opens the file, then per extension parses the container and inspects its tag
block; a path whose extension matches none of the three branches, or whose
matched branch finds no tag block, falls through to `Ok(false)`. -/
def has_embedded_lyrics (env : Env) (d : Disk) (audio_path : FPath) :
    Except LrcError Bool :=
  if audio_path ∈ env.openFails then .error .io else
  match alookup audio_path d.audio with
  | none => .error .io
  | some data =>
    if audio_path.ext = some "flac" then
      match data with
      | .flac (some vorbis_comments) =>
        .ok ((alookup "LYRICS" vorbis_comments).isSome
          || (alookup "UNSYNCEDLYRICS" vorbis_comments).isSome)
      | .flac none => .ok false
      | _ => .error .audioErr
    else if audio_path.ext = some "mp3" then
      match data with
      | .mp3 (some id3v2) =>
        .ok ((alookup "USLT" id3v2).isSome || (alookup "SYLT" id3v2).isSome)
      | .mp3 none => .ok false
      | _ => .error .audioErr
    else if audio_path.ext = some "m4a" then
      match data with
      | .m4a (some ilst) => .ok (alookup "\xa9lyr" ilst).isSome
      | .m4a none => .ok false
      | _ => .error .audioErr
    else .ok false

/-- `fn embed_lrc_to_flac(audio_path: &Path, lyrics: &str) -> Result<()>`.
When the container carries a vorbis-comments block, `LYRICS` is inserted and
the container is saved back to the same path; when it carries none the
function returns `Ok(())` without touching the disk. -/
def embed_lrc_to_flac (env : Env) (d : Disk) (audio_path : FPath)
    (lyrics : String) : Disk × Except LrcError Unit :=
  if audio_path ∈ env.openFails then (d, .error .io) else
  match alookup audio_path d.audio with
  | none => (d, .error .io)
  | some data =>
    match data with
    | .flac (some vorbis_comments) =>
      let data' := AudioData.flac (some (ainsert "LYRICS" lyrics vorbis_comments))
      ({ d with audio := ainsert audio_path data' d.audio }, .ok ())
    | .flac none => (d, .ok ())
    | _ => (d, .error .audioErr)

/-- `fn embed_lrc_to_mp3`: inserts a `USLT` frame carrying the payload into
the ID3v2 tag, when one exists, and saves; otherwise returns `Ok(())`. -/
def embed_lrc_to_mp3 (env : Env) (d : Disk) (audio_path : FPath)
    (lyrics : String) : Disk × Except LrcError Unit :=
  if audio_path ∈ env.openFails then (d, .error .io) else
  match alookup audio_path d.audio with
  | none => (d, .error .io)
  | some data =>
    match data with
    | .mp3 (some id3v2) =>
      let data' := AudioData.mp3 (some (ainsert "USLT" lyrics id3v2))
      ({ d with audio := ainsert audio_path data' d.audio }, .ok ())
    | .mp3 none => (d, .ok ())
    | _ => (d, .error .audioErr)

/-- `fn embed_lrc_to_m4a`: inserts a `©lyr` atom carrying the payload into
the `ilst` item list, when one exists, and saves; otherwise `Ok(())`. -/
def embed_lrc_to_m4a (env : Env) (d : Disk) (audio_path : FPath)
    (lyrics : String) : Disk × Except LrcError Unit :=
  if audio_path ∈ env.openFails then (d, .error .io) else
  match alookup audio_path d.audio with
  | none => (d, .error .io)
  | some data =>
    match data with
    | .m4a (some ilst) =>
      let data' := AudioData.m4a (some (ainsert "\xa9lyr" lyrics ilst))
      ({ d with audio := ainsert audio_path data' d.audio }, .ok ())
    | .m4a none => (d, .ok ())
    | _ => (d, .error .audioErr)

/-- The extension dispatch chain inlined in `embed_lrc_to_file`: the three
`else if audio_path.extension()` branches, and the final `else` returning
`LrcError::UnsupportedFormat` with the (lossy) extension string. -/
def embedByExt (env : Env) (d : Disk) (audio_path : FPath)
    (lyrics_content : String) : Disk × Except LrcError Unit :=
  if audio_path.ext = some "flac" then
    embed_lrc_to_flac env d audio_path lyrics_content
  else if audio_path.ext = some "mp3" then
    embed_lrc_to_mp3 env d audio_path lyrics_content
  else if audio_path.ext = some "m4a" then
    embed_lrc_to_m4a env d audio_path lyrics_content
  else
    (d, .error (.unsupportedFormat (audio_path.ext.getD "")))

/-- `fn embed_lrc_to_file(audio_path, lrc_path, reduce_lrc) -> Result<()>`.
Reads the sidecar, dispatches on the (case-sensitive) extension, and when
`reduce_lrc` holds deletes the sidecar afterwards; a deletion failure is
propagated with `?` after the tag write has already been persisted, which is
why the disk mutated so far is returned alongside the error. -/
def embed_lrc_to_file (env : Env) (d : Disk) (audio_path lrc_path : FPath)
    (reduce_lrc : Bool) : Disk × Except LrcError Unit :=
  match alookup lrc_path d.lrc with
  | none => (d, .error .io)
  | some lyrics_content =>
    match embedByExt env d audio_path lyrics_content with
    | (d', .error e) => (d', .error e)
    | (d', .ok ()) =>
      if reduce_lrc then
        if lrc_path ∈ env.removeFails then (d', .error .io)
        else ({ d' with lrc := aerase lrc_path d'.lrc }, .ok ())
      else (d', .ok ())

/-- The scanner's filter: `matches!(ext.to_str(), Some("flac"|"mp3"|"m4a"))`,
an exact (case-sensitive) string comparison. -/
def supportedExt : Option String → Bool
  | some e => e = "flac" || e = "mp3" || e = "m4a"
  | none => false

/-- The combined `WalkDir` + filter pipeline applied to one entry: the walk
yields only readable entries (`filter_map(|e| e.ok())`), `max_depth(1)`
restricts a non-recursive walk to the root's immediate children, and the
filter keeps regular files with a supported extension. -/
def scanEntry (recursive : Bool) (e : FSEntry) : Bool :=
  e.readable && (recursive || e.path.dir.isEmpty) && e.isFile
    && supportedExt e.path.ext

/-- The `audio_files` vector collected in `embed_lrc`. -/
def audioFilesOf (entries : List FSEntry) (recursive : Bool) : List FPath :=
  (entries.filter (scanEntry recursive)).map (·.path)

/-- `struct EmbedStats`. -/
structure EmbedStats where
  total_audio_files : Nat
  embedded_lyrics : Nat
  failed_files : List FPath
deriving DecidableEq, Repr

/-- The orchestrator's reading of the detector under skip-mode: only
`Ok(true)` skips; `Ok(false)` and `Err(_)` (reported as a warning) both fall
through to the embedding attempt. -/
def detectedExisting (env : Env) (d : Disk) (p : FPath) : Bool :=
  match has_embedded_lyrics env d p with
  | .ok true => true
  | _ => false

/-- `fs::rename(&lrc_path, &failed_lrc_path)`: fails (leaving the disk
unchanged) when the source is in the failing set or absent. -/
def renameLrc (env : Env) (d : Disk) (src dst : FPath) : Disk :=
  if src ∈ env.renameFails then d
  else
    match alookup src d.lrc with
    | none => d
    | some content => { d with lrc := ainsert dst content (aerase src d.lrc) }

/-- The body of the `for audio_path in audio_files` loop in `embed_lrc`:
sidecar-missing check, skip-mode detection, embedding, and on failure the
`failed_files` push plus the sidecar rename to `.lrc.failed` (the Rust
`lrc_path.with_extension("lrc.failed")`). -/
def processFile (env : Env) (skip_existing reduce_lrc : Bool) :
    Disk × EmbedStats → FPath → Disk × EmbedStats
  | (d, stats), audio_path =>
    if (alookup audio_path.lrcPath d.lrc).isNone then (d, stats)
    else if skip_existing && detectedExisting env d audio_path then (d, stats)
    else
      match embed_lrc_to_file env d audio_path audio_path.lrcPath reduce_lrc with
      | (d', .ok ()) =>
        (d', { stats with embedded_lyrics := stats.embedded_lyrics + 1 })
      | (d', .error _) =>
        (renameLrc env d' audio_path.lrcPath
            (audio_path.lrcPath.withExtension "lrc.failed"),
          { stats with failed_files := stats.failed_files ++ [audio_path] })

/-- `fn embed_lrc(directory, skip_existing, reduce_lrc, recursive)
-> Result<EmbedStats>`: collect the audio files, set `total_audio_files`,
then fold the per-file loop; the function itself always returns `Ok`. -/
def embed_lrc (env : Env) (d : Disk) (skip_existing reduce_lrc recursive : Bool) :
    Except LrcError (Disk × EmbedStats) :=
  let audio_files := audioFilesOf env.entries recursive
  .ok (audio_files.foldl (processFile env skip_existing reduce_lrc)
    (d, { total_audio_files := audio_files.length
          embedded_lyrics := 0
          failed_files := [] }))

/-- The statistics reported by a run. -/
def runStats (env : Env) (d : Disk) (skip_existing reduce_lrc recursive : Bool) :
    EmbedStats :=
  match embed_lrc env d skip_existing reduce_lrc recursive with
  | .ok (_, stats) => stats
  | .error _ => ⟨0, 0, []⟩

/-- The disk state left behind by a run. -/
def runDisk (env : Env) (d : Disk) (skip_existing reduce_lrc recursive : Bool) :
    Disk :=
  match embed_lrc env d skip_existing reduce_lrc recursive with
  | .ok (d', _) => d'
  | .error _ => d

/-- The lyric field a container carries, per format: the `LYRICS` comment,
the `USLT` frame, or the `©lyr` atom. -/
def lyricsValue : AudioData → Option String
  | .flac (some vorbis) => alookup "LYRICS" vorbis
  | .mp3 (some id3v2) => alookup "USLT" id3v2
  | .m4a (some ilst) => alookup "\xa9lyr" ilst
  | _ => none

/-- The lyric field carried by the container stored at a path. -/
def containerLyrics (d : Disk) (p : FPath) : Option String :=
  (alookup p d.audio).bind lyricsValue

/-- A container that carries a tag block at all (vorbis comments, an ID3v2
tag, or an `ilst`): the tag mutators write only into an existing block. -/
def hasTagBlock : AudioData → Bool
  | .flac (some _) => true
  | .mp3 (some _) => true
  | .m4a (some _) => true
  | _ => false

/-- The stored container shape matches what the path's extension makes the
codec parse it as. -/
def kindMatches (ext : Option String) : AudioData → Bool
  | .flac _ => ext = some "flac"
  | .mp3 _ => ext = some "mp3"
  | .m4a _ => ext = some "m4a"
  | .corrupt => false

/-- Modelled from the spec (§8, aggregate consistency): the number of
filesystem entries that are regular files with one of the three supported
extensions under the scan root at the configured depth. -/
def specAudioCount (entries : List FSEntry) (recursive : Bool) : Nat :=
  (entries.filter (fun e =>
    e.readable && e.isFile && (recursive || e.path.dir.isEmpty)
      && supportedExt e.path.ext)).length

/-! ## Concrete fixtures used by witnesses and counterexamples -/

/-- A FLAC file directly under the scan root. -/
def pFlac : FPath := ⟨[], "song", some "flac"⟩

/-- Its derived sidecar path, `song.lrc`. -/
def pFlacLrc : FPath := pFlac.lrcPath

/-- The walk entry for `pFlac`. -/
def entryFlac : FSEntry := ⟨pFlac, true, true⟩

/-- A world where every filesystem operation succeeds. -/
def envPlain : Env := ⟨[entryFlac], [], [], []⟩

/-- A world where deleting `song.lrc` fails. -/
def envRemoveFail : Env := ⟨[entryFlac], [], [pFlacLrc], []⟩

/-- `song.flac` carries an empty vorbis-comments block; sidecar `"la"`. -/
def diskEmptyVorbis : Disk := ⟨[(pFlac, .flac (some []))], [(pFlacLrc, "la")]⟩

/-- `song.flac` carries no vorbis-comments block at all; sidecar `"la"`. -/
def diskNoVorbis : Disk := ⟨[(pFlac, .flac none)], [(pFlacLrc, "la")]⟩

/-- `song.flac` holds bytes no reader can parse; sidecar `"la"`. -/
def diskCorrupt : Disk := ⟨[(pFlac, .corrupt)], [(pFlacLrc, "la")]⟩

/-- `song.flac` with a tag block but no sidecar anywhere. -/
def diskNoSidecar : Disk := ⟨[(pFlac, .flac (some []))], []⟩

/-- An entry the walk failed to read. -/
def entryUnreadable : FSEntry := ⟨pFlac, true, false⟩

/-- A world whose only entry is unreadable (nonexistent or denied root). -/
def envUnreadable : Env := ⟨[entryUnreadable], [], [], []⟩

/-- An MP3 file inside the direct subdirectory `albums` of the scan root. -/
def pSub : FPath := ⟨["albums"], "song", some "mp3"⟩

/-- The walk entry for `pSub`. -/
def entrySub : FSEntry := ⟨pSub, true, true⟩

/-- A world whose only audio file sits in a direct subdirectory. -/
def envSub : Env := ⟨[entrySub], [], [], []⟩

/-- A file whose extension differs from `flac` only in case. -/
def pUpper : FPath := ⟨[], "song", some "FLAC"⟩

/-- `song.FLAC` (upper-case extension) with a matching sidecar. -/
def diskUpper : Disk := ⟨[(pUpper, .flac (some []))], [(pUpper.lrcPath, "la")]⟩

/-! ## Helper lemmas -/

theorem alookup_aerase_append {α β : Type} [DecidableEq α] (k : α)
    (l rest : List (α × β)) :
    alookup k (aerase k l ++ rest) = alookup k rest := by
  induction l with
  | nil => rfl
  | cons kv t ih =>
    obtain ⟨a, b⟩ := kv
    by_cases h : a = k
    · simpa [aerase, h] using ih
    · simp [aerase, alookup, h, ih]

theorem alookup_aerase_self {α β : Type} [DecidableEq α] (k : α)
    (l : List (α × β)) :
    alookup k (aerase k l) = none := by
  have := alookup_aerase_append k l ([] : List (α × β))
  simpa using this

theorem alookup_ainsert_self {α β : Type} [DecidableEq α] (k : α) (v : β)
    (l : List (α × β)) :
    alookup k (ainsert k v l) = some v := by
  simp [ainsert, alookup_aerase_append, alookup]

theorem alookup_ainsert_ne {α β : Type} [DecidableEq α] {a k : α} (v : β)
    (l : List (α × β)) (h : a ≠ k) :
    alookup a (ainsert k v l) = alookup a (aerase k l) := by
  induction l with
  | nil => simp [ainsert, aerase, alookup, Ne.symm h]
  | cons kv t ih =>
    obtain ⟨x, y⟩ := kv
    by_cases hx : x = k
    · simpa [ainsert, aerase, hx] using ih
    · by_cases hxa : x = a
      · subst hxa
        simp [ainsert, aerase, alookup, hx]
      · have ih' : alookup a (aerase k t ++ [(k, v)]) = alookup a (aerase k t) := by
          simpa [ainsert] using ih
        simp [ainsert, aerase, alookup, hx, hxa, ih']

theorem alookup_aerase_ne {α β : Type} [DecidableEq α] {a k : α}
    (l : List (α × β)) (h : a ≠ k) :
    alookup a (aerase k l) = alookup a l := by
  induction l with
  | nil => rfl
  | cons kv t ih =>
    obtain ⟨x, y⟩ := kv
    by_cases hx : x = k
    · subst hx
      simp [aerase, alookup, ih, Ne.symm h]
    · by_cases hxa : x = a
      · subst hxa
        simp [aerase, alookup, hx]
      · simp [aerase, alookup, hx, hxa, ih]

theorem embed_lrc_to_flac_eq (env : Env) (d : Disk) (p : FPath)
    (c : String) (vs : List (String × String))
    (hopen : p ∉ env.openFails)
    (haudio : alookup p d.audio = some (.flac (some vs))) :
    embed_lrc_to_flac env d p c =
      ({ d with audio :=
          ainsert p (.flac (some (ainsert "LYRICS" c vs))) d.audio }, .ok ()) := by
  simp [embed_lrc_to_flac, hopen, haudio]

theorem embed_lrc_to_mp3_eq (env : Env) (d : Disk) (p : FPath)
    (c : String) (fs : List (String × String))
    (hopen : p ∉ env.openFails)
    (haudio : alookup p d.audio = some (.mp3 (some fs))) :
    embed_lrc_to_mp3 env d p c =
      ({ d with audio :=
          ainsert p (.mp3 (some (ainsert "USLT" c fs))) d.audio }, .ok ()) := by
  simp [embed_lrc_to_mp3, hopen, haudio]

theorem embed_lrc_to_m4a_eq (env : Env) (d : Disk) (p : FPath)
    (c : String) (il : List (String × String))
    (hopen : p ∉ env.openFails)
    (haudio : alookup p d.audio = some (.m4a (some il))) :
    embed_lrc_to_m4a env d p c =
      ({ d with audio :=
          ainsert p (.m4a (some (ainsert "\xa9lyr" c il))) d.audio }, .ok ()) := by
  simp [embed_lrc_to_m4a, hopen, haudio]

theorem embed_lrc_to_flac_lrc (env : Env) (d : Disk) (p : FPath) (c : String) :
    (embed_lrc_to_flac env d p c).1.lrc = d.lrc := by
  unfold embed_lrc_to_flac
  split
  · rfl
  · split
    · rfl
    · split <;> rfl

theorem embed_lrc_to_mp3_lrc (env : Env) (d : Disk) (p : FPath) (c : String) :
    (embed_lrc_to_mp3 env d p c).1.lrc = d.lrc := by
  unfold embed_lrc_to_mp3
  split
  · rfl
  · split
    · rfl
    · split <;> rfl

theorem embed_lrc_to_m4a_lrc (env : Env) (d : Disk) (p : FPath) (c : String) :
    (embed_lrc_to_m4a env d p c).1.lrc = d.lrc := by
  unfold embed_lrc_to_m4a
  split
  · rfl
  · split
    · rfl
    · split <;> rfl

theorem renameLrc_audio (env : Env) (d : Disk) (src dst : FPath) :
    (renameLrc env d src dst).audio = d.audio := by
  unfold renameLrc
  split
  · rfl
  · split <;> rfl


theorem embedByExt_lrc (env : Env) (d : Disk) (p : FPath) (c : String) :
    (embedByExt env d p c).1.lrc = d.lrc := by
  unfold embedByExt
  split
  · exact embed_lrc_to_flac_lrc env d p c
  · split
    · exact embed_lrc_to_mp3_lrc env d p c
    · split
      · exact embed_lrc_to_m4a_lrc env d p c
      · rfl

theorem embed_lrc_to_file_eq_none (env : Env) (d : Disk) (p q : FPath)
    (reduce : Bool) (h : alookup q d.lrc = none) :
    embed_lrc_to_file env d p q reduce = (d, .error .io) := by
  unfold embed_lrc_to_file
  rw [h]

theorem embed_lrc_to_file_eq_some (env : Env) (d : Disk) (p q : FPath)
    (reduce : Bool) (c : String) (h : alookup q d.lrc = some c) :
    embed_lrc_to_file env d p q reduce =
      (match embedByExt env d p c with
      | (d', .error e) => (d', .error e)
      | (d', .ok ()) =>
        if reduce then
          if q ∈ env.removeFails then (d', .error .io)
          else ({ d' with lrc := aerase q d'.lrc }, .ok ())
        else (d', .ok ())) := by
  unfold embed_lrc_to_file
  rw [h]

theorem embed_lrc_to_file_err_lrc (env : Env) (d : Disk) (p q : FPath)
    (reduce : Bool) (d' : Disk) (err : LrcError)
    (hres : embed_lrc_to_file env d p q reduce = (d', .error err)) :
    d'.lrc = d.lrc := by
  rcases hlook : alookup q d.lrc with _ | content
  · rw [embed_lrc_to_file_eq_none env d p q reduce hlook] at hres
    simp only [Prod.mk.injEq] at hres
    exact hres.1 ▸ rfl
  · rw [embed_lrc_to_file_eq_some env d p q reduce content hlook] at hres
    rcases hstep : embedByExt env d p content with ⟨d₁, res⟩
    have hd₁ : d₁.lrc = d.lrc := by
      have h := embedByExt_lrc env d p content
      rw [hstep] at h
      exact h
    rw [hstep] at hres
    rcases res with e | u
    · simp only [Prod.mk.injEq] at hres
      exact hres.1 ▸ hd₁
    · rcases u
      simp only [] at hres
      split at hres
      · split at hres
        · simp only [Prod.mk.injEq] at hres
          exact hres.1 ▸ hd₁
        · simp at hres
      · simp at hres

theorem embed_lrc_to_file_ok_noreduce_lrc (env : Env) (d : Disk) (p q : FPath)
    (d' : Disk)
    (hres : embed_lrc_to_file env d p q false = (d', .ok ())) :
    d'.lrc = d.lrc := by
  rcases hlook : alookup q d.lrc with _ | content
  · rw [embed_lrc_to_file_eq_none env d p q false hlook] at hres
    simp at hres
  · rw [embed_lrc_to_file_eq_some env d p q false content hlook] at hres
    rcases hstep : embedByExt env d p content with ⟨d₁, res⟩
    have hd₁ : d₁.lrc = d.lrc := by
      have h := embedByExt_lrc env d p content
      rw [hstep] at h
      exact h
    rw [hstep] at hres
    rcases res with e | u
    · simp at hres
    · rcases u
      simp only [Bool.false_eq_true, if_false, Prod.mk.injEq] at hres
      exact hres.1 ▸ hd₁

theorem embed_lrc_to_file_reduce_remove_fail (env : Env) (d : Disk)
    (p q : FPath) (d' : Disk)
    (hok : embed_lrc_to_file env d p q false = (d', .ok ()))
    (hmem : q ∈ env.removeFails) :
    embed_lrc_to_file env d p q true = (d', .error .io) := by
  rcases hlook : alookup q d.lrc with _ | content
  · rw [embed_lrc_to_file_eq_none env d p q false hlook] at hok
    simp at hok
  · rw [embed_lrc_to_file_eq_some env d p q false content hlook] at hok
    rw [embed_lrc_to_file_eq_some env d p q true content hlook]
    rcases hstep : embedByExt env d p content with ⟨d₁, res⟩
    rw [hstep] at hok
    rcases res with e | u
    · simp at hok
    · rcases u
      simp only [Bool.false_eq_true, if_false, Prod.mk.injEq] at hok
      simp [hmem, hok.1]

theorem processFile_total (env : Env) (s r : Bool) (d : Disk)
    (stats : EmbedStats) (p : FPath) :
    ((processFile env s r (d, stats) p).2).total_audio_files
      = stats.total_audio_files := by
  simp only [processFile]
  split
  · rfl
  · split
    · rfl
    · split <;> rfl

theorem foldl_processFile_total (env : Env) (s r : Bool) (ps : List FPath) :
    ∀ st : Disk × EmbedStats,
      ((ps.foldl (processFile env s r) st).2).total_audio_files
        = st.2.total_audio_files := by
  induction ps with
  | nil => intro st; rfl
  | cons p t ih =>
    intro st
    rcases st with ⟨d, stats⟩
    rw [List.foldl_cons, ih]
    exact processFile_total env s r d stats p

theorem scanEntry_eq (rec : Bool) (e : FSEntry) :
    scanEntry rec e
      = (e.readable && e.isFile && (rec || e.path.dir.isEmpty)
          && supportedExt e.path.ext) := by
  unfold scanEntry
  cases hr : e.readable <;> cases hf : e.isFile <;>
    cases hd : (rec || e.path.dir.isEmpty) <;> simp [hr, hf, hd]

theorem audioFilesOf_single (e : FSEntry) (rec : Bool) :
    audioFilesOf [e] rec = if scanEntry rec e then [e.path] else [] := by
  cases h : scanEntry rec e <;> simp [audioFilesOf, List.filter_cons, h]

theorem mem_audioFilesOf_supported {q : FPath} {es : List FSEntry}
    {rec : Bool} (h : q ∈ audioFilesOf es rec) : supportedExt q.ext = true := by
  unfold audioFilesOf at h
  obtain ⟨e, he, rfl⟩ := List.mem_map.mp h
  have hs := (List.mem_filter.mp he).2
  rw [scanEntry_eq] at hs
  simp only [Bool.and_eq_true] at hs
  exact hs.2

theorem embed_lrc_eq (env : Env) (d : Disk) (s r rec : Bool) :
    embed_lrc env d s r rec
      = .ok ((audioFilesOf env.entries rec).foldl (processFile env s r)
          (d, ⟨(audioFilesOf env.entries rec).length, 0, []⟩)) := rfl

theorem runStats_eq (env : Env) (d : Disk) (s r rec : Bool) :
    runStats env d s r rec
      = ((audioFilesOf env.entries rec).foldl (processFile env s r)
          (d, ⟨(audioFilesOf env.entries rec).length, 0, []⟩)).2 := rfl

theorem runDisk_eq (env : Env) (d : Disk) (s r rec : Bool) :
    runDisk env d s r rec
      = ((audioFilesOf env.entries rec).foldl (processFile env s r)
          (d, ⟨(audioFilesOf env.entries rec).length, 0, []⟩)).1 := rfl

/-! ## Claim theorems -/

/-- C4: `total_audio_files` equals the number of readable regular-file
entries carrying one of the three supported extensions under the scan root
at the configured depth. The statement quantifies over the entire disk
(audio containers and sidecars alike), so the count is independent of
whether a matching sidecar exists for any file. -/
theorem total_audio_files_matches_spec_count (env : Env) (d : Disk)
    (s r rec : Bool) :
    (runStats env d s r rec).total_audio_files
      = specAudioCount env.entries rec := by
  rw [runStats_eq, foldl_processFile_total]
  show (audioFilesOf env.entries rec).length = _
  unfold audioFilesOf specAudioCount
  rw [List.length_map]
  congr 1
  apply List.filter_congr
  intro e he
  exact scanEntry_eq rec e

/-- C5: a scan root that does not exist, or whose entries cannot all be
read, contributes no AudioEntry values: the orchestrator still returns a
non-error result, with `total_audio_files = 0`, nothing embedded, no failed
files, and the disk untouched. -/
theorem unreadable_root_yields_empty_successful_run (env : Env) (d : Disk)
    (s r rec : Bool) (h : ∀ e ∈ env.entries, e.readable = false) :
    embed_lrc env d s r rec = .ok (d, ⟨0, 0, []⟩) := by
  have hfilter : env.entries.filter (scanEntry rec) = [] := by
    apply List.filter_eq_nil_iff.mpr
    intro e he
    simp [scanEntry, h e he]
  have haf : audioFilesOf env.entries rec = [] := by
    simp [audioFilesOf, hfilter]
  rw [embed_lrc_eq, haf]
  rfl

/-- Witness for `unreadable_root_yields_empty_successful_run`: a root whose
single walk entry is unreadable. -/
theorem unreadable_root_yields_empty_successful_run_witness :
    (∀ e ∈ envUnreadable.entries, e.readable = false)
      ∧ embed_lrc envUnreadable diskEmptyVorbis false false false
          = .ok (diskEmptyVorbis, ⟨0, 0, []⟩) :=
  ⟨by decide, unreadable_root_yields_empty_successful_run envUnreadable
    diskEmptyVorbis false false false (by decide)⟩

/-- C7: under skip-mode, a detector failure (container not parseable) is
treated as "no lyrics detected": the per-file step behaves exactly as it
would with skip-mode disabled, proceeding to the embedding attempt instead
of aborting or failing the file at the detection stage. -/
theorem detector_error_proceeds_to_embed (env : Env) (d : Disk)
    (stats : EmbedStats) (p : FPath) (reduce : Bool) (err : LrcError)
    (hdet : has_embedded_lyrics env d p = .error err) :
    processFile env true reduce (d, stats) p
      = processFile env false reduce (d, stats) p := by
  have hno : detectedExisting env d p = false := by
    simp [detectedExisting, hdet]
  simp [processFile, hno]

/-- Witness for `detector_error_proceeds_to_embed`: a corrupt FLAC
container, on which the detector reports `LrcError::Audio`. -/
theorem detector_error_proceeds_to_embed_witness :
    has_embedded_lyrics envPlain diskCorrupt pFlac = .error .audioErr
      ∧ processFile envPlain true false (diskCorrupt, ⟨1, 0, []⟩) pFlac
          = processFile envPlain false false (diskCorrupt, ⟨1, 0, []⟩) pFlac :=
  ⟨rfl, detector_error_proceeds_to_embed envPlain diskCorrupt ⟨1, 0, []⟩
    pFlac false .audioErr rfl⟩

/-- C8: when the derived sidecar path does not exist, the file is skipped
with no further action: no container is opened for writing (the disk is
returned unchanged) and neither `embedded_lyrics` nor `failed_files`
changes. -/
theorem sidecar_missing_leaves_state_unchanged (env : Env) (d : Disk)
    (stats : EmbedStats) (p : FPath) (skip reduce : Bool)
    (h : alookup p.lrcPath d.lrc = none) :
    processFile env skip reduce (d, stats) p = (d, stats) := by
  simp [processFile, h]

/-- Witness for `sidecar_missing_leaves_state_unchanged`: an audio file with
no sidecar anywhere on disk. -/
theorem sidecar_missing_leaves_state_unchanged_witness :
    alookup pFlac.lrcPath diskNoSidecar.lrc = none
      ∧ processFile envPlain true true (diskNoSidecar, ⟨1, 0, []⟩) pFlac
          = (diskNoSidecar, ⟨1, 0, []⟩) :=
  ⟨rfl, sidecar_missing_leaves_state_unchanged envPlain diskNoSidecar
    ⟨1, 0, []⟩ pFlac true true rfl⟩

/-- C9: the recursion boundary. An audio file sitting in a direct
subdirectory of the scan root (one directory component below it) is part of
the scanned list when recursion is enabled and absent from it when
traversal is limited to the root's immediate children; `total_audio_files`
is the length of that scanned list. -/
theorem recursion_boundary_subdirectory (env : Env) (d : Disk)
    (e : FSEntry) (sub : String) (s r : Bool)
    (hmem : e ∈ env.entries) (hdir : e.path.dir = [sub])
    (hfile : e.isFile = true) (hread : e.readable = true)
    (hext : supportedExt e.path.ext = true) :
    e.path ∈ audioFilesOf env.entries true
      ∧ e.path ∉ audioFilesOf env.entries false
      ∧ (∀ rec, (runStats env d s r rec).total_audio_files
          = (audioFilesOf env.entries rec).length) := by
  refine ⟨?_, ?_, ?_⟩
  · refine List.mem_map.mpr ⟨e, List.mem_filter.mpr ⟨hmem, ?_⟩, rfl⟩
    simp [scanEntry, hread, hfile, hext]
  · intro hmem2
    unfold audioFilesOf at hmem2
    obtain ⟨e2, he2, hpe⟩ := List.mem_map.mp hmem2
    have hs := (List.mem_filter.mp he2).2
    rw [scanEntry_eq] at hs
    simp only [Bool.and_eq_true, Bool.or_eq_true] at hs
    rcases hs.1.2 with hf | hemp
    · exact absurd hf (by simp)
    · rw [hpe, hdir] at hemp
      simp at hemp
  · intro rec
    rw [runStats_eq, foldl_processFile_total]

/-- Witness for `recursion_boundary_subdirectory`: a one-entry world whose
audio file lives in the subdirectory `albums`. -/
theorem recursion_boundary_subdirectory_witness :
    (entrySub ∈ envSub.entries ∧ entrySub.path.dir = ["albums"]
        ∧ entrySub.isFile = true ∧ entrySub.readable = true
        ∧ supportedExt entrySub.path.ext = true)
      ∧ entrySub.path ∈ audioFilesOf envSub.entries true
      ∧ entrySub.path ∉ audioFilesOf envSub.entries false := by
  have h := recursion_boundary_subdirectory envSub diskEmptyVorbis entrySub
    "albums" false false (by decide) rfl rfl rfl (by decide)
  exact ⟨⟨by decide, rfl, rfl, rfl, by decide⟩, h.1, h.2.1⟩

/-- C10: extension matching is case-sensitive throughout the pipeline. A
path whose extension is not exactly one of the lower-case `flac`, `mp3`,
`m4a` (for example `FLAC`) never appears in the scanned list, and handing
it directly to the mutation dispatcher is rejected with
`LrcError::UnsupportedFormat` carrying that extension string, rather than
being treated as its lower-case counterpart. -/
theorem extension_matching_case_sensitive (env : Env) (d : Disk)
    (p : FPath) (x c : String) (reduce rec : Bool)
    (hx : p.ext = some x)
    (h1 : x ≠ "flac") (h2 : x ≠ "mp3") (h3 : x ≠ "m4a")
    (hlrc : alookup p.lrcPath d.lrc = some c) :
    p ∉ audioFilesOf env.entries rec
      ∧ embed_lrc_to_file env d p p.lrcPath reduce
          = (d, .error (.unsupportedFormat x)) := by
  constructor
  · intro hmem
    have hs := mem_audioFilesOf_supported hmem
    rw [hx] at hs
    simp [supportedExt, h1, h2, h3] at hs
  · rw [embed_lrc_to_file_eq_some env d p p.lrcPath reduce c hlrc]
    have hby : embedByExt env d p c = (d, .error (.unsupportedFormat x)) := by
      simp [embedByExt, hx, h1, h2, h3]
    rw [hby]

/-- Witness for `extension_matching_case_sensitive`: the file `song.FLAC`
with a matching sidecar. -/
theorem extension_matching_case_sensitive_witness :
    (pUpper.ext = some "FLAC"
        ∧ alookup pUpper.lrcPath diskUpper.lrc = some "la")
      ∧ pUpper ∉ audioFilesOf envPlain.entries true
      ∧ embed_lrc_to_file envPlain diskUpper pUpper pUpper.lrcPath false
          = (diskUpper, .error (.unsupportedFormat "FLAC")) := by
  have h := extension_matching_case_sensitive envPlain diskUpper pUpper
    "FLAC" "la" false true rfl (by decide) (by decide) (by decide) rfl
  exact ⟨⟨rfl, rfl⟩, h.1, h.2⟩

/-- C6: on a tag-mutation error the orchestrator appends the path to
`failed_files` (leaving `embedded_lyrics` alone) and renames the sidecar by
turning its `lrc` extension into `lrc.failed`. When the rename itself fails
the disk is left exactly as the failed mutation left it; in both cases the
per-file step returns normally so the batch continues with the next file. -/
theorem embed_failure_appends_failed_and_renames_sidecar
    (env : Env) (d d' : Disk) (stats : EmbedStats) (p : FPath)
    (skip reduce : Bool) (err : LrcError) (c : String)
    (hskip : (skip && detectedExisting env d p) = false)
    (hlrc : alookup p.lrcPath d.lrc = some c)
    (hembed : embed_lrc_to_file env d p p.lrcPath reduce = (d', .error err)) :
    (processFile env skip reduce (d, stats) p).2
        = { stats with failed_files := stats.failed_files ++ [p] }
      ∧ (p.lrcPath ∈ env.renameFails →
          (processFile env skip reduce (d, stats) p).1 = d')
      ∧ (p.lrcPath ∉ env.renameFails →
          alookup p.lrcPath (processFile env skip reduce (d, stats) p).1.lrc
              = none
            ∧ alookup (p.lrcPath.withExtension "lrc.failed")
                (processFile env skip reduce (d, stats) p).1.lrc = some c) := by
  have hstep : processFile env skip reduce (d, stats) p
      = (renameLrc env d' p.lrcPath (p.lrcPath.withExtension "lrc.failed"),
        { stats with failed_files := stats.failed_files ++ [p] }) := by
    simp [processFile, hlrc, hskip, hembed]
  have hne : p.lrcPath ≠ p.lrcPath.withExtension "lrc.failed" := by
    intro h
    have := congrArg FPath.ext h
    simp [FPath.lrcPath, FPath.withExtension] at this
  have hd'lrc : d'.lrc = d.lrc :=
    embed_lrc_to_file_err_lrc env d p p.lrcPath reduce d' err hembed
  refine ⟨by rw [hstep], ?_, ?_⟩
  · intro hmem
    rw [hstep]
    simp [renameLrc, hmem]
  · intro hmem
    rw [hstep]
    have hsrc : alookup p.lrcPath d'.lrc = some c := by rw [hd'lrc]; exact hlrc
    have hren : renameLrc env d' p.lrcPath (p.lrcPath.withExtension "lrc.failed")
        = ⟨d'.audio, ainsert (p.lrcPath.withExtension "lrc.failed") c
            (aerase p.lrcPath d'.lrc)⟩ := by
      simp [renameLrc, hmem, hsrc]
    rw [hren]
    constructor
    · rw [alookup_ainsert_ne _ _ hne, alookup_aerase_ne _ hne,
        alookup_aerase_self]
    · exact alookup_ainsert_self _ _ _

/-- Witness for `embed_failure_appends_failed_and_renames_sidecar`: a
corrupt FLAC container whose mutation fails with `LrcError::Audio`; the
rename succeeds and moves `song.lrc` to `song.lrc.failed`. -/
theorem embed_failure_appends_failed_and_renames_sidecar_witness :
    ((false && detectedExisting envPlain diskCorrupt pFlac) = false
        ∧ alookup pFlac.lrcPath diskCorrupt.lrc = some "la"
        ∧ embed_lrc_to_file envPlain diskCorrupt pFlac pFlac.lrcPath false
            = (diskCorrupt, .error .audioErr))
      ∧ (processFile envPlain false false (diskCorrupt, ⟨1, 0, []⟩) pFlac).2
          = ⟨1, 0, [pFlac]⟩
      ∧ alookup pFlac.lrcPath
          (processFile envPlain false false (diskCorrupt, ⟨1, 0, []⟩)
            pFlac).1.lrc = none
      ∧ alookup (pFlac.lrcPath.withExtension "lrc.failed")
          (processFile envPlain false false (diskCorrupt, ⟨1, 0, []⟩)
            pFlac).1.lrc = some "la" := by
  have h := embed_failure_appends_failed_and_renames_sidecar envPlain
    diskCorrupt diskCorrupt ⟨1, 0, []⟩ pFlac false false .audioErr "la"
    rfl rfl rfl
  have h3 := h.2.2 (by decide)
  exact ⟨⟨rfl, rfl, rfl⟩, h.1, h3.1, h3.2⟩

/-- Successful embedding through the dispatcher on a container whose shape
matches the extension and which carries a tag block: the container at the
path is replaced by one that carries the payload in its lyric field, the
sidecar map is untouched, and the detector subsequently reports a confirmed
positive on any disk storing the new container at the path. -/
theorem embedByExt_tagged (env : Env) (d : Disk) (p : FPath) (c : String)
    (dat : AudioData)
    (hopen : p ∉ env.openFails)
    (haudio : alookup p d.audio = some dat)
    (hkind : kindMatches p.ext dat = true)
    (hblock : hasTagBlock dat = true) :
    ∃ dat', embedByExt env d p c = (⟨ainsert p dat' d.audio, d.lrc⟩, .ok ())
      ∧ lyricsValue dat' = some c
      ∧ ∀ d₂ : Disk, alookup p d₂.audio = some dat' →
          has_embedded_lyrics env d₂ p = .ok true := by
  rcases dat with _ | ob | ob | ob
  · simp [kindMatches] at hkind
  · rcases ob with _ | vs
    · simp [hasTagBlock] at hblock
    · have hext : p.ext = some "flac" := by simpa [kindMatches] using hkind
      refine ⟨.flac (some (ainsert "LYRICS" c vs)), ?_, ?_, ?_⟩
      · rw [show embedByExt env d p c = embed_lrc_to_flac env d p c from by
          simp [embedByExt, hext]]
        rw [embed_lrc_to_flac_eq env d p c vs hopen haudio]
      · simp [lyricsValue, alookup_ainsert_self]
      · intro d₂ h₂
        simp [has_embedded_lyrics, hopen, h₂, hext, alookup_ainsert_self]
  · rcases ob with _ | fr
    · simp [hasTagBlock] at hblock
    · have hext : p.ext = some "mp3" := by simpa [kindMatches] using hkind
      refine ⟨.mp3 (some (ainsert "USLT" c fr)), ?_, ?_, ?_⟩
      · rw [show embedByExt env d p c = embed_lrc_to_mp3 env d p c from by
          simp [embedByExt, hext]]
        rw [embed_lrc_to_mp3_eq env d p c fr hopen haudio]
      · simp [lyricsValue, alookup_ainsert_self]
      · intro d₂ h₂
        simp [has_embedded_lyrics, hopen, h₂, hext, alookup_ainsert_self]
  · rcases ob with _ | il
    · simp [hasTagBlock] at hblock
    · have hext : p.ext = some "m4a" := by simpa [kindMatches] using hkind
      refine ⟨.m4a (some (ainsert "\xa9lyr" c il)), ?_, ?_, ?_⟩
      · rw [show embedByExt env d p c = embed_lrc_to_m4a env d p c from by
          simp [embedByExt, hext]]
        rw [embed_lrc_to_m4a_eq env d p c il hopen haudio]
      · simp [lyricsValue, alookup_ainsert_self]
      · intro d₂ h₂
        simp [has_embedded_lyrics, hopen, h₂, hext, alookup_ainsert_self]

/-- C1 (amended): if the tag mutation succeeds but reduce-mode's sidecar
deletion fails, the deletion error is propagated out of
`embed_lrc_to_file`, so the file is counted as failed — `embedded_lyrics`
does not increment and the path is appended to `failed_files` — while the
already-completed tag write is not rolled back: the container still carries
the sidecar payload afterwards, and the per-file step returns normally so
the batch continues. -/
theorem reduce_remove_failure_marks_failed_but_keeps_tag
    (env : Env) (d : Disk) (stats : EmbedStats) (p : FPath)
    (dat : AudioData) (skip : Bool) (c : String)
    (hskip : (skip && detectedExisting env d p) = false)
    (hopen : p ∉ env.openFails)
    (haudio : alookup p d.audio = some dat)
    (hkind : kindMatches p.ext dat = true)
    (hblock : hasTagBlock dat = true)
    (hlrc : alookup p.lrcPath d.lrc = some c)
    (hrm : p.lrcPath ∈ env.removeFails) :
    (processFile env skip true (d, stats) p).2.embedded_lyrics
        = stats.embedded_lyrics
      ∧ (processFile env skip true (d, stats) p).2.failed_files
          = stats.failed_files ++ [p]
      ∧ containerLyrics (processFile env skip true (d, stats) p).1 p
          = some c := by
  obtain ⟨dat', hby, hlyr, -⟩ :=
    embedByExt_tagged env d p c dat hopen haudio hkind hblock
  have hembed : embed_lrc_to_file env d p p.lrcPath true
      = (⟨ainsert p dat' d.audio, d.lrc⟩, .error .io) := by
    rw [embed_lrc_to_file_eq_some env d p p.lrcPath true c hlrc, hby]
    simp [hrm]
  have hstep : processFile env skip true (d, stats) p
      = (renameLrc env ⟨ainsert p dat' d.audio, d.lrc⟩ p.lrcPath
            (p.lrcPath.withExtension "lrc.failed"),
        { stats with failed_files := stats.failed_files ++ [p] }) := by
    simp [processFile, hlrc, hskip, hembed]
  rw [hstep]
  refine ⟨rfl, rfl, ?_⟩
  simp [containerLyrics, renameLrc_audio, alookup_ainsert_self, hlyr]

/-- C1 as stated is false on the code: `fs::remove_file(lrc_path)?` inside
`embed_lrc_to_file` propagates a deletion failure, so a reduce-mode run on
`song.flac` (tag block present, sidecar `"la"`, delete failing) ends with
`embedded_lyrics = 0` and `failed_files = [song.flac]` instead of counting
the file as embedded — even though the container does carry the payload
afterwards, showing the mutation itself had succeeded. -/
theorem reduce_remove_failure_cex :
    runStats envRemoveFail diskEmptyVorbis false true false
        = ⟨1, 0, [pFlac]⟩
      ∧ containerLyrics
          (runDisk envRemoveFail diskEmptyVorbis false true false) pFlac
          = some "la" :=
  ⟨by decide, by decide⟩

/-- Witness for `reduce_remove_failure_marks_failed_but_keeps_tag`:
`song.flac` with an (empty) vorbis-comments block, sidecar `"la"`, and a
failing delete of `song.lrc`. -/
theorem reduce_remove_failure_marks_failed_but_keeps_tag_witness :
    (pFlac ∉ envRemoveFail.openFails
        ∧ alookup pFlac diskEmptyVorbis.audio = some (.flac (some []))
        ∧ pFlac.lrcPath ∈ envRemoveFail.removeFails)
      ∧ (processFile envRemoveFail false true (diskEmptyVorbis, ⟨1, 0, []⟩)
            pFlac).2.embedded_lyrics = 0
      ∧ (processFile envRemoveFail false true (diskEmptyVorbis, ⟨1, 0, []⟩)
            pFlac).2.failed_files = [pFlac]
      ∧ containerLyrics (processFile envRemoveFail false true
            (diskEmptyVorbis, ⟨1, 0, []⟩) pFlac).1 pFlac = some "la" := by
  have h := reduce_remove_failure_marks_failed_but_keeps_tag envRemoveFail
    diskEmptyVorbis ⟨1, 0, []⟩ pFlac (.flac (some [])) false "la"
    rfl (by decide) rfl (by decide) rfl rfl (by decide)
  exact ⟨⟨by decide, rfl, by decide⟩, h.1, h.2.1, h.2.2⟩

/-- C2 (amended): for every FLAC AudioEntry whose container carries a
vorbis-comments block, and every LyricPayload, the mutator inserts or
replaces the `LYRICS` comment key with the full payload text and saves the
container back to the same path; after the (successful) mutation the
container at that path carries the payload under `LYRICS`. -/
theorem flac_mutation_with_vorbis_block_embeds_payload
    (env : Env) (d : Disk) (p : FPath) (lyrics : String)
    (vs : List (String × String))
    (hopen : p ∉ env.openFails)
    (haudio : alookup p d.audio = some (.flac (some vs))) :
    embed_lrc_to_flac env d p lyrics
        = ({ d with audio := ainsert p (.flac (some (ainsert "LYRICS" lyrics vs))) d.audio }, .ok ())
      ∧ containerLyrics (embed_lrc_to_flac env d p lyrics).1 p
          = some lyrics := by
  refine ⟨embed_lrc_to_flac_eq env d p lyrics vs hopen haudio, ?_⟩
  rw [embed_lrc_to_flac_eq env d p lyrics vs hopen haudio]
  simp [containerLyrics, alookup_ainsert_self, lyricsValue]

/-- C2 as stated is false on the code: on a FLAC container without a
vorbis-comments block, `embed_lrc_to_flac` reports success while writing
nothing — the `if let Some(vorbis_comments)` guard silently skips both the
insert and the save, and the container carries no `LYRICS` afterwards. -/
theorem flac_mutation_without_vorbis_block_cex :
    embed_lrc_to_flac envPlain diskNoVorbis pFlac "hello"
        = (diskNoVorbis, .ok ())
      ∧ containerLyrics diskNoVorbis pFlac = none :=
  ⟨rfl, rfl⟩

/-- Witness for `flac_mutation_with_vorbis_block_embeds_payload`:
`song.flac` with an empty vorbis-comments block and payload `"hello"`. -/
theorem flac_mutation_with_vorbis_block_embeds_payload_witness :
    (pFlac ∉ envPlain.openFails
        ∧ alookup pFlac diskEmptyVorbis.audio = some (.flac (some [])))
      ∧ containerLyrics
          (embed_lrc_to_flac envPlain diskEmptyVorbis pFlac "hello").1 pFlac
          = some "hello" := by
  have h := flac_mutation_with_vorbis_block_embeds_payload envPlain
    diskEmptyVorbis pFlac "hello" [] (by decide) rfl
  exact ⟨⟨by decide, rfl⟩, h.2⟩

/-- C3 (amended): skip-mode idempotence holds for containers that carry a
tag block. In a single-file world whose container shape matches its
extension and carries a tag block (vorbis comments / ID3v2 / ilst), if a
first run without reduce-mode reports one embedded file, then a second run
with skip-mode enabled embeds nothing: the Presence Detector returns a
confirmed positive, the file takes the skip branch, and the disk — the
sidecar included — is left untouched. -/
theorem skip_mode_second_run_embeds_nothing
    (env : Env) (d d1 : Disk) (e : FSEntry) (dat : AudioData)
    (stats1 : EmbedStats) (skip1 rec1 reduce2 rec2 : Bool)
    (hentries : env.entries = [e])
    (haudio : alookup e.path d.audio = some dat)
    (hkind : kindMatches e.path.ext dat = true)
    (hblock : hasTagBlock dat = true)
    (hopen : e.path ∉ env.openFails)
    (hrun1 : embed_lrc env d skip1 false rec1 = .ok (d1, stats1))
    (hemb : stats1.embedded_lyrics = 1) :
    (runStats env d1 true reduce2 rec2).embedded_lyrics = 0
      ∧ runDisk env d1 true reduce2 rec2 = d1 := by
  rw [embed_lrc_eq, hentries, audioFilesOf_single] at hrun1
  cases hscan1 : scanEntry rec1 e with
  | false =>
    rw [hscan1] at hrun1
    simp only [Bool.false_eq_true, if_false, List.foldl_nil, List.length_nil,
      Except.ok.injEq, Prod.mk.injEq] at hrun1
    obtain ⟨-, hstats⟩ := hrun1
    rw [← hstats] at hemb
    simp at hemb
  | true =>
    rw [hscan1] at hrun1
    simp only [if_true, List.foldl_cons, List.foldl_nil, List.length_cons,
      List.length_nil] at hrun1
    rcases hlrc2 : alookup e.path.lrcPath d.lrc with _ | c
    · simp only [processFile, hlrc2, Option.isNone_none, if_true,
        Except.ok.injEq, Prod.mk.injEq] at hrun1
      obtain ⟨-, hstats⟩ := hrun1
      rw [← hstats] at hemb
      simp at hemb
    · cases hdet1 : skip1 && detectedExisting env d e.path with
      | true =>
        simp only [processFile, hlrc2, Option.isNone_some,
          Bool.false_eq_true, if_false, hdet1, if_true, Except.ok.injEq,
          Prod.mk.injEq] at hrun1
        obtain ⟨-, hstats⟩ := hrun1
        rw [← hstats] at hemb
        simp at hemb
      | false =>
        obtain ⟨dat', hby, hlyr, hdetect⟩ :=
          embedByExt_tagged env d e.path c dat hopen haudio hkind hblock
        have hfile : embed_lrc_to_file env d e.path e.path.lrcPath false
            = (⟨ainsert e.path dat' d.audio, d.lrc⟩, .ok ()) := by
          rw [embed_lrc_to_file_eq_some env d e.path e.path.lrcPath false c
            hlrc2, hby]
          rfl
        have hpf : processFile env skip1 false (d, ⟨0 + 1, 0, []⟩) e.path
            = (⟨ainsert e.path dat' d.audio, d.lrc⟩, ⟨0 + 1, 1, []⟩) := by
          simp [processFile, hlrc2, hdet1, hfile]
        rw [hpf] at hrun1
        simp only [Except.ok.injEq, Prod.mk.injEq] at hrun1
        obtain ⟨hd1, hstats⟩ := hrun1
        subst hd1
        have haudio2 : alookup e.path
            (Disk.mk (ainsert e.path dat' d.audio) d.lrc).audio = some dat' :=
          alookup_ainsert_self _ _ _
        have hdet2 : detectedExisting env
            ⟨ainsert e.path dat' d.audio, d.lrc⟩ e.path = true := by
          simp [detectedExisting, hdetect _ haudio2]
        constructor
        · rw [runStats_eq, hentries, audioFilesOf_single]
          cases hscan2 : scanEntry rec2 e with
          | false => simp
          | true => simp [processFile, hlrc2, hdet2]
        · rw [runDisk_eq, hentries, audioFilesOf_single]
          cases hscan2 : scanEntry rec2 e with
          | false => simp
          | true => simp [processFile, hlrc2, hdet2]

/-- C3 as stated is false on the code: on a FLAC container with no
vorbis-comments block, the first skip-mode run reports a successful embed
(`embedded_lyrics = 1`) although nothing was written; the second run with
skip-mode enabled therefore detects no lyrics and embeds again, reporting
`embedded_lyrics = 1` instead of the claimed `0`. -/
theorem skip_mode_second_run_cex :
    runStats envPlain diskNoVorbis true false false = ⟨1, 1, []⟩
      ∧ runStats envPlain (runDisk envPlain diskNoVorbis true false false)
          true false false = ⟨1, 1, []⟩ :=
  ⟨by decide, by decide⟩

/-- Witness for `skip_mode_second_run_embeds_nothing`: `song.flac` with an
empty vorbis-comments block; the first run embeds (`embedded_lyrics = 1`)
and the second, skip-mode run embeds nothing. -/
theorem skip_mode_second_run_embeds_nothing_witness :
    (embed_lrc envPlain diskEmptyVorbis false false false
        = .ok (⟨[(pFlac, .flac (some [("LYRICS", "la")]))],
            [(pFlacLrc, "la")]⟩, ⟨1, 1, []⟩))
      ∧ (runStats envPlain
            ⟨[(pFlac, .flac (some [("LYRICS", "la")]))], [(pFlacLrc, "la")]⟩
            true false false).embedded_lyrics = 0
      ∧ runDisk envPlain
            ⟨[(pFlac, .flac (some [("LYRICS", "la")]))], [(pFlacLrc, "la")]⟩
            true false false
          = ⟨[(pFlac, .flac (some [("LYRICS", "la")]))], [(pFlacLrc, "la")]⟩ := by
  have h := skip_mode_second_run_embeds_nothing envPlain diskEmptyVorbis
    ⟨[(pFlac, .flac (some [("LYRICS", "la")]))], [(pFlacLrc, "la")]⟩
    entryFlac (.flac (some [])) ⟨1, 1, []⟩ false false false false
    rfl rfl (by decide) (by decide) (by decide) rfl rfl
  exact ⟨rfl, h.1, h.2⟩
